import Mathlib

/-!
# Verification of the carddav-utils reconciliation core

Shallow embedding of the merge / injection / picture-index engine of the
`carddav_utils` package, together with proofs and refutations of the frozen
specification claims.

Conventions of the embedding:
* Python `bytes` values are `List Nat` (each element a byte value).
* `datetime` timestamps are `Nat` (only their ordering is used by the code).
* Remote collections are modelled as finite association structures or as
  functions into `Option`; asynchronous task groups are modelled by the
  sequential order in which the code creates the tasks (the scheduling of the
  single-threaded cooperative event loop in task-creation order).
* Fallible operations return `Except`.
-/

set_option autoImplicit false

namespace CardDavUtils

/-- A byte string (Python `bytes`), each entry one byte value. -/
abbrev Bytes := List Nat

/-! ## SHA-256

`StoredProfilePictureInfo.from_profile_picture_info` hashes the photo bytes
with `hashlib.sha256(ppi.photo).hexdigest()`.  We embed SHA-256 (FIPS 180-4)
executably over `Bytes`; 32-bit machine words are `Nat` reduced modulo `2^32`.
The code stores the hex digest string; since hex encoding is injective we model
the hash value as the 32 digest bytes, which preserves all equality tests the
code performs. -/

/-- Truncate to a 32-bit word. -/
def w32 (x : Nat) : Nat := x % 2 ^ 32

/-- Right rotation of a 32-bit word by `n` bits. -/
def rotr (n x : Nat) : Nat := w32 ((x >>> n) ||| (x <<< (32 - n)))

/-- Bitwise complement within 32 bits. -/
def not32 (x : Nat) : Nat := x ^^^ 0xffffffff

/-- SHA-256 `Ch` function. -/
def ch (x y z : Nat) : Nat := (x &&& y) ^^^ (not32 x &&& z)

/-- SHA-256 `Maj` function. -/
def maj (x y z : Nat) : Nat := (x &&& y) ^^^ (x &&& z) ^^^ (y &&& z)

/-- SHA-256 big sigma-0. -/
def bsig0 (x : Nat) : Nat := rotr 2 x ^^^ rotr 13 x ^^^ rotr 22 x

/-- SHA-256 big sigma-1. -/
def bsig1 (x : Nat) : Nat := rotr 6 x ^^^ rotr 11 x ^^^ rotr 25 x

/-- SHA-256 small sigma-0. -/
def ssig0 (x : Nat) : Nat := rotr 7 x ^^^ rotr 18 x ^^^ (x >>> 3)

/-- SHA-256 small sigma-1. -/
def ssig1 (x : Nat) : Nat := rotr 17 x ^^^ rotr 19 x ^^^ (x >>> 10)

/-- The 64 SHA-256 round constants of FIPS 180-4 (fractional parts of the
cube roots of the first 64 primes), as decimal 32-bit values. -/
def shaK : List Nat :=
  [1116352408, 1899447441, 3049323471, 3921009573,
   961987163, 1508970993, 2453635748, 2870763221,
   3624381080, 310598401, 607225278, 1426881987,
   1925078388, 2162078206, 2614888103, 3248222580,
   3835390401, 4022224774, 264347078, 604807628,
   770255983, 1249150122, 1555081692, 1996064986,
   2554220882, 2821834349, 2952996808, 3210313671,
   3336571891, 3584528711, 113926993, 338241895,
   666307205, 773529912, 1294757372, 1396182291,
   1695183700, 1986661051, 2177026350, 2456956037,
   2730485921, 2820302411, 3259730800, 3345764771,
   3516065817, 3600352804, 4094571909, 275423344,
   430227734, 506948616, 659060556, 883997877,
   958139571, 1322822218, 1537002063, 1747873779,
   1955562222, 2024104815, 2227730452, 2361852424,
   2428436474, 2756734187, 3204031479, 3329325298]

/-- The SHA-256 initial hash value of FIPS 180-4 (fractional parts of the
square roots of the first 8 primes), as decimal 32-bit values. -/
def shaInit : List Nat :=
  [1779033703, 3144134277, 1013904242, 2773480762,
   1359893119, 2600822924, 528734635, 1541459225]

/-- Big-endian encoding of `x` into `n` bytes. -/
def toBytesBE (n x : Nat) : Bytes :=
  (List.range n).map fun i => (x >>> (8 * (n - 1 - i))) % 256

/-- SHA-256 message padding: append `0x80`, zero bytes up to 56 mod 64, then
the bit length as an 8-byte big-endian integer. -/
def padMessage (msg : Bytes) : Bytes :=
  let z := (119 - msg.length % 64) % 64
  msg ++ [0x80] ++ List.replicate z 0 ++ toBytesBE 8 (8 * msg.length)

/-- Split a byte string into 64-byte blocks (structural recursion on a fuel
bound so that the definition reduces by evaluation). -/
def toBlocksAux : Nat → Bytes → List Bytes
  | 0, _ => []
  | _, [] => []
  | fuel + 1, l => l.take 64 :: toBlocksAux fuel (l.drop 64)

/-- Split a byte string into 64-byte blocks. -/
def toBlocks (l : Bytes) : List Bytes := toBlocksAux l.length l

/-- The sixteen 32-bit words of one 64-byte block (big-endian). -/
def blockWords (block : Bytes) : List Nat :=
  (List.range 16).map fun i =>
    (block.getD (4 * i) 0) <<< 24 ||| (block.getD (4 * i + 1) 0) <<< 16 |||
      (block.getD (4 * i + 2) 0) <<< 8 ||| block.getD (4 * i + 3) 0

/-- Extend the message schedule by `n` further words. -/
def extendWords : Nat → List Nat → List Nat
  | 0, acc => acc
  | n + 1, acc =>
      let t := acc.length
      let w := w32 (ssig1 (acc.getD (t - 2) 0) + acc.getD (t - 7) 0 +
        ssig0 (acc.getD (t - 15) 0) + acc.getD (t - 16) 0)
      extendWords n (acc ++ [w])

/-- One round of the SHA-256 compression function. -/
def shaRound (st : List Nat) (kw : Nat × Nat) : List Nat :=
  match st with
  | [a, b, c, d, e, f, g, hh] =>
      let t1 := w32 (hh + bsig1 e + ch e f g + kw.1 + kw.2)
      let t2 := w32 (bsig0 a + maj a b c)
      [w32 (t1 + t2), a, b, c, w32 (d + t1), e, f, g]
  | _ => st

/-- Process one 64-byte block. -/
def shaBlock (st : List Nat) (block : Bytes) : List Nat :=
  let ws := extendWords 48 (blockWords block)
  let st2 := (shaK.zip ws).foldl shaRound st
  (st.zip st2).map fun p => w32 (p.1 + p.2)

/-- SHA-256 digest (32 bytes) of a byte string. -/
def sha256 (msg : Bytes) : Bytes :=
  ((toBlocks (padMessage msg)).foldl shaBlock shaInit).foldr
    (fun wrd acc => toBytesBE 4 wrd ++ acc) []

/-! ## Storage objects (`_storageobjects.py`, `_nextcloudstorage.py`)

Phone numbers appear in the code as canonical strings
(`ParsedPhoneNumber = NewType("ParsedPhoneNumber", str)`); we model them as
`String`.  The canonicalisation function `phone_number_to_string` belongs to
the external `phonenumbers` collaborator and plays no role in the claims, so
values are taken to be already canonical. -/

/-- `ProfilePictureInfo` (`_profilepictureinfo.py`): one picture record emitted
by a crawler. -/
structure ProfilePictureInfo where
  phone_number : String
  photo : Bytes
  mime_type : String
  deriving DecidableEq, Repr

/-- `mime_type.split('/')[-1]`: the final component of the MIME type. -/
def mimeSubtype (mime : String) : String := (mime.splitOn "/").getLastD ""

/-- `StoredProfilePictureInfo`: one persisted index entry.  The `hash` field
holds the SHA-256 digest of the photo bytes (the code stores the hex digest;
hex encoding is injective, so digest bytes carry the same equality tests). -/
structure StoredProfilePictureInfo where
  phone_number : String
  mime_type : String
  file_path : String
  hash : Bytes
  deriving DecidableEq, Repr

/-- `StoredProfilePictureInfo.from_profile_picture_info`: derive the index
entry for a picture record.  The file path is
`(storage_path / phone_number).with_suffix("." + mime subtype)`; canonical
phone numbers contain no dot, so `with_suffix` appends the suffix. -/
def StoredProfilePictureInfo.fromProfilePictureInfo
    (ppi : ProfilePictureInfo) (storagePath : String) : StoredProfilePictureInfo :=
  { phone_number := ppi.phone_number
    mime_type := ppi.mime_type
    file_path := storagePath ++ "/" ++ ppi.phone_number ++ "." ++ mimeSubtype ppi.mime_type
    hash := sha256 ppi.photo }

/-- `StoredProfilePictureInfoCollection`: the in-memory picture index. -/
structure StoredProfilePictureInfoCollection where
  profile_pictures : List StoredProfilePictureInfo
  deriving DecidableEq, Repr

/-- The loop body of `StoredProfilePictureInfoCollection.update`, mirroring
CPython semantics of `for existing in pics: ... pics.remove(existing)`:
scanning left to right; on a phone-number match with identical hash the method
returns `None` at once (entries to the right stay untouched, flag `true`); on
a match with a different hash the current element is removed in place, which
shifts the next element into the current index so the loop skips it.
Returns the resulting list and whether the method returned `None`. -/
def updateLoop (phone : String) (newHash : Bytes) :
    List StoredProfilePictureInfo → List StoredProfilePictureInfo × Bool
  | [] => ([], false)
  | x :: rest =>
    if x.phone_number = phone then
      if x.hash = newHash then (x :: rest, true)
      else
        match rest with
        | [] => ([], false)
        | y :: rest2 =>
          let r := updateLoop phone newHash rest2
          (y :: r.1, r.2)
    else
      let r := updateLoop phone newHash rest
      (x :: r.1, r.2)

/-- `StoredProfilePictureInfoCollection.update`: update or add a profile
picture, keyed by phone number; an entry with identical hash is left alone and
`none` is returned, otherwise the matching entry is removed and the new entry
appended.  Returns the mutated collection together with the return value of
the Python method (`some new_entry` or `none`). -/
def StoredProfilePictureInfoCollection.update
    (col : StoredProfilePictureInfoCollection) (ppi : ProfilePictureInfo) :
    StoredProfilePictureInfoCollection × Option StoredProfilePictureInfo :=
  let newEntry := StoredProfilePictureInfo.fromProfilePictureInfo ppi "./photos"
  let (r, returnedNone) := updateLoop ppi.phone_number newEntry.hash col.profile_pictures
  if returnedNone then (⟨r⟩, none) else (⟨r ++ [newEntry]⟩, some newEntry)

/-- `StoredProfilePictureInfoCollection.get_by_phone_number`
(`_storageobjects.py` variant): first entry with the given phone number. -/
def StoredProfilePictureInfoCollection.getByPhoneNumber
    (col : StoredProfilePictureInfoCollection) (phone : String) :
    Option StoredProfilePictureInfo :=
  col.profile_pictures.find? fun pic => pic.phone_number = phone

/-- `VCardIdentifier`: composite lookup key; at least one field must be set
(enforced by a pydantic validator at construction). -/
structure VCardIdentifier where
  uid : Option String := none
  phone : Option String := none
  email : Option String := none
  nick_name : Option String := none
  deriving DecidableEq, Repr

/-- `VCardPhoneNumber` (number plus type tag, tag modelled as a string). -/
structure VCardPhoneNumber where
  number : String
  number_type : String
  deriving DecidableEq, Repr

/-- `VCardEmail`. -/
structure VCardEmail where
  email : String
  email_type : String
  deriving DecidableEq, Repr

/-- `AdditionalVCardInfo`: supplementary data attached to an identifier. -/
structure AdditionalVCardInfo where
  identifiers : VCardIdentifier
  phone_numbers : List VCardPhoneNumber := []
  emails : List VCardEmail := []
  deriving DecidableEq, Repr

/-- One iteration of `AdditionalVCardInfoCollection.get_by_identifier`: the
entry is returned when any of the four field checks succeeds; a check requires
the identifier field to be non-`None` and the entry field to equal it. -/
def matchesIdentifier (identifier : VCardIdentifier) (entry : AdditionalVCardInfo) : Bool :=
  (identifier.uid.isSome && entry.identifiers.uid == identifier.uid) ||
  (identifier.phone.isSome && entry.identifiers.phone == identifier.phone) ||
  (identifier.email.isSome && entry.identifiers.email == identifier.email) ||
  (identifier.nick_name.isSome && entry.identifiers.nick_name == identifier.nick_name)

/-- `AdditionalVCardInfoCollection.get_by_identifier`: scan the entries in
order; inside each entry test uid, then phone, then email, then nickname, and
return the entry on the first test that succeeds. -/
def getByIdentifier (entries : List AdditionalVCardInfo) (identifier : VCardIdentifier) :
    Option AdditionalVCardInfo :=
  match entries with
  | [] => none
  | e :: rest =>
    if identifier.uid.isSome && e.identifiers.uid == identifier.uid then some e
    else if identifier.phone.isSome && e.identifiers.phone == identifier.phone then some e
    else if identifier.email.isSome && e.identifiers.email == identifier.email then some e
    else if identifier.nick_name.isSome && e.identifiers.nick_name == identifier.nick_name then
      some e
    else getByIdentifier rest identifier

/-! ## NextCloud storage (`_nextcloudstorage.py`)

The NextCloud client belongs to the external collaborator layer; its
`download_file_to_memory` either raises `NextCloudNotFound` or returns bytes,
and TOML parsing (`from_toml`, stdlib `tomllib`) is likewise external.  Both
enter the model as explicit inputs of `getCurrentStatus`.  Photo uploads are
recorded as `(file path, bytes)` pairs. -/

/-- Outcome of `download_file_to_memory` for the index document. -/
inductive IndexDownload where
  | notFound
  | ok (data : Bytes)
  deriving DecidableEq

/-- `NextCloudStorage.get_current_status`: `NextCloudNotFound` yields a fresh
empty collection; a downloaded document is parsed, and a parse failure is
re-raised as `ValueError` with context. -/
def getCurrentStatus (download : IndexDownload)
    (parse : Bytes → Except String StoredProfilePictureInfoCollection) :
    Except String StoredProfilePictureInfoCollection :=
  match download with
  | .notFound => .ok ⟨[]⟩
  | .ok data =>
    match parse data with
    | .ok c => .ok c
    | .error e => .error ("Failed to parse existing profile_pictures.toml: " ++ e)

/-- `NextCloudStorage._update_profile_picture` (with `upload_index=False`):
run the in-memory index update; when it reports a new entry, upload the photo
bytes to the entry's derived path, otherwise perform no upload.  Returns the
new index state and the photo uploads performed. -/
def updateProfilePictureStep (col : StoredProfilePictureInfoCollection)
    (ppi : ProfilePictureInfo) :
    StoredProfilePictureInfoCollection × List (String × Bytes) :=
  match col.update ppi with
  | (col2, none) => (col2, [])
  | (col2, some newEntry) => (col2, [(newEntry.file_path, ppi.photo)])

/-- `NextCloudStorage.update_from_iterator`: consume the merged crawler
sequence, one `_update_profile_picture(ppi, upload_index=False)` task per
record (tasks created in arrival order; modelled in that order), then a single
index-document upload at the end (not part of the photo-upload list). -/
def updateFromIterator (col : StoredProfilePictureInfoCollection)
    (records : List ProfilePictureInfo) :
    StoredProfilePictureInfoCollection × List (String × Bytes) :=
  records.foldl
    (fun acc ppi =>
      let r := updateProfilePictureStep acc.1 ppi
      (r.1, acc.2 ++ r.2))
    (col, [])

/-! ## Profile-picture injector (`ppc/_injector.py`)

A target address book is a list of `(uid, vcard)` pairs; the vCard fields the
injector reads are the formatted name, the phone-number set (canonical
strings, as produced by `phone_number_to_string(tel.value)`), and the photo
field.  The local filesystem used for the debug dump in the replace branch is
an explicit input `fsw : String → Bool` telling whether writing a given file
name succeeds (`write_bytes`/`write_text` raise on failure, e.g. when the
`out` directory does not exist). -/

/-- `InjectionMethod`. -/
inductive InjectionMethod where
  | always_override
  | compare_content
  deriving DecidableEq, Repr

/-- `_InjectionResult`. -/
inductive InjectionResult where
  | unchanged
  | updated
  | added
  deriving DecidableEq, Repr

/-- The relevant projection of one vCard for the injector. -/
structure InjVCard where
  fn : Option String
  tels : List String
  photo : Option Bytes
  deriving DecidableEq, Repr

/-- Observable effects of one injection unit. -/
inductive InjectEvent where
  | writeLocal (fileName : String) (data : Bytes)
  | writeLocalText (fileName : String) (text : String)
  | uploadVCard (targetId : String) (uid : String)
  deriving DecidableEq, Repr

/-- Python `str(bool)`. -/
def pyBool (b : Bool) : String := if b then "True" else "False"

/-- The text of the `{log_id}-diff.txt` dump. -/
def diffText (existing new : Bytes) : String :=
  "Existing photo size: " ++ toString existing.length ++ " bytes\n" ++
  "New photo size: " ++ toString new.length ++ " bytes\n" ++
  "Same content: " ++ pyBool (existing = new) ++ "\n"

/-- `ProfilePictureInjector._inject_into_vcard`: classify the vCard, dump the
old/new photos and a diff summary to the local `out` directory when an
existing picture is to be replaced (each failed local write raises and aborts
the unit), and upload the mutated vCard when a change is needed.  Returns the
`_InjectionResult` and the events in program order. -/
def injectIntoVCard (fsw : String → Bool) (targetId uid : String) (vcard : InjVCard)
    (pp : ProfilePictureInfo) (method : InjectionMethod) :
    Except String (InjectionResult × List InjectEvent) :=
  let logId := vcard.fn.getD uid
  match vcard.photo with
  | some existing =>
    if method = InjectionMethod.always_override ∨
        (method = InjectionMethod.compare_content ∧ existing ≠ pp.photo) then
      let f1 := logId ++ "-existing.jpg"
      let f2 := logId ++ "-new.jpg"
      let f3 := logId ++ "-diff.txt"
      if fsw f1 = false then .error ("write failed: " ++ f1)
      else if fsw f2 = false then .error ("write failed: " ++ f2)
      else if fsw f3 = false then .error ("write failed: " ++ f3)
      else
        .ok (InjectionResult.updated,
          [InjectEvent.writeLocal f1 existing,
           InjectEvent.writeLocal f2 pp.photo,
           InjectEvent.writeLocalText f3 (diffText existing pp.photo),
           InjectEvent.uploadVCard targetId uid])
    else .ok (InjectionResult.unchanged, [])
  | none =>
    .ok (InjectionResult.added, [InjectEvent.uploadVCard targetId uid])

/-- `ProfilePictureInjector.inject_profile_picture_into_target`: one injection
unit per vCard of the target whose phone-number set contains the record's
key; any unit failure fails the task group. -/
def injectIntoTarget (fsw : String → Bool) (targetId : String)
    (vcards : List (String × InjVCard)) (pp : ProfilePictureInfo)
    (method : InjectionMethod) :
    Except String (List InjectionResult × List InjectEvent) :=
  match vcards with
  | [] => .ok ([], [])
  | (uid, v) :: rest =>
    if pp.phone_number ∈ v.tels then
      match injectIntoVCard fsw targetId uid v pp method with
      | .error e => .error e
      | .ok (r, evs) =>
        match injectIntoTarget fsw targetId rest pp method with
        | .error e => .error e
        | .ok (rs, evs2) => .ok (r :: rs, evs ++ evs2)
    else injectIntoTarget fsw targetId rest pp method

/-- `ProfilePictureInjector.inject_profile_picture_into_all_targets`: fan one
accepted record out to every target. -/
def injectIntoAllTargets (fsw : String → Bool)
    (targets : List (String × List (String × InjVCard))) (pp : ProfilePictureInfo)
    (method : InjectionMethod) :
    Except String (List InjectionResult × List InjectEvent) :=
  match targets with
  | [] => .ok ([], [])
  | (tid, vcards) :: rest =>
    match injectIntoTarget fsw tid vcards pp method with
    | .error e => .error e
    | .ok (rs, evs) =>
      match injectIntoAllTargets fsw rest pp method with
      | .error e => .error e
      | .ok (rs2, evs2) => .ok (rs ++ rs2, evs ++ evs2)

/-- The consumption loop of `ProfilePictureInjector.inject_from_all_crawlers`:
walk the merged crawler stream with the `parsed_phone_numbers` seen-set; a
record whose phone number was already seen is skipped (`continue`), otherwise
a fan-out task is spawned and the phone number recorded. -/
def injectRunAux (fsw : String → Bool)
    (targets : List (String × List (String × InjVCard))) (method : InjectionMethod) :
    List String → List ProfilePictureInfo → Except String (List InjectEvent)
  | _, [] => .ok []
  | seen, pp :: rest =>
    if pp.phone_number ∈ seen then injectRunAux fsw targets method seen rest
    else
      match injectIntoAllTargets fsw targets pp method with
      | .error e => .error e
      | .ok (_, evs) =>
        match injectRunAux fsw targets method (pp.phone_number :: seen) rest with
        | .error e => .error e
        | .ok evs2 => .ok (evs ++ evs2)

/-- `ProfilePictureInjector.inject_from_all_crawlers` on one concrete
interleaving `merged` of the crawler outputs. -/
def injectFromAllCrawlers (fsw : String → Bool)
    (targets : List (String × List (String × InjVCard))) (method : InjectionMethod)
    (merged : List ProfilePictureInfo) : Except String (List InjectEvent) :=
  injectRunAux fsw targets method [] merged

/-! ## Address-book merger (`abm/_merger.py`)

A collection state maps target id and UID to the entry stored there; `none`
means absent.  Only the `last_modified` metadata and the downloaded body of a
vCard are consulted by the merge, so an entry is modelled by those two fields.
Sources are immutable during a run, so a source unit carries its UID, its
`last_modified`, and the body its `download_vcard_to_memory` returns.  A merge
pass processes its units in task-creation order (sources in order, each
source's UIDs in order); the target snapshot (`initialize`) is taken once at
the start while content comparisons download the current target body. -/

/-- The projection of one stored vCard the merge consults. -/
structure VCardEntry where
  lastModified : Nat
  content : String
  deriving DecidableEq, Repr

/-- The combined state of all target collections. -/
abbrev TargetState := String → String → Option VCardEntry

/-- `upload_vcard` on a target: overwrite the entry unconditionally (no
precondition tag); the server stamps the upload time `now`. -/
def setVCard (ts : TargetState) (tid uid : String) (e : VCardEntry) : TargetState :=
  fun t u => if t = tid ∧ u = uid then some e else ts t u

/-- `ComparisonMethod`. -/
inductive ComparisonMethod where
  | edit_date
  | content
  deriving DecidableEq, Repr

/-- Running outcome of one `_handle_vcard` unit: the evolving target state,
the number of `upload_vcard` calls, the number of content comparisons
performed (each downloads the source and the target body), the number of
fills of the `vcard_content` cache (each downloads the source body), total
source-body downloads, and the cache itself. -/
structure UnitOutcome where
  state : TargetState
  uploads : Nat
  compares : Nat
  cacheFills : Nat
  sourceDownloads : Nat
  cache : Option String

/-- `if vcard_content is None: vcard_content = await client.download_vcard_to_memory(uid)`:
produce the body to upload, filling the cache on first use. -/
def fillCache (acc : UnitOutcome) (info : VCardEntry) : String × UnitOutcome :=
  match acc.cache with
  | some c => (c, acc)
  | none =>
    (info.content,
     { acc with sourceDownloads := acc.sourceDownloads + 1,
                cacheFills := acc.cacheFills + 1, cache := some info.content })

/-- The upload tail of `_handle_vcard`: fetch the body (cached) and upload it
to the target under the same UID. -/
def uploadStep (now : Nat) (tid uid : String) (info : VCardEntry) (acc : UnitOutcome) :
    UnitOutcome :=
  let r := fillCache acc info
  { r.2 with state := setVCard r.2.state tid uid ⟨now, r.1⟩, uploads := r.2.uploads + 1 }

/-- The per-target body of `_handle_vcard`: skip when the snapshot has the UID
and, under `EDIT_DATE`, the target's timestamp is at least the source's;
otherwise download both bodies and skip when they are identical; otherwise
upload.  A UID absent from the snapshot is uploaded without comparison. -/
def handleVCardStep (cmp : ComparisonMethod) (now : Nat) (snap : TargetState)
    (uid : String) (info : VCardEntry) (acc : UnitOutcome) (tid : String) : UnitOutcome :=
  match snap tid uid with
  | some tinfo =>
    if cmp = ComparisonMethod.edit_date ∧ info.lastModified ≤ tinfo.lastModified then acc
    else
      let acc2 := { acc with sourceDownloads := acc.sourceDownloads + 1,
                             compares := acc.compares + 1 }
      if (acc.state tid uid).map VCardEntry.content = some info.content then acc2
      else uploadStep now tid uid info acc2
  | none => uploadStep now tid uid info acc

/-- `AddressBookMerger._handle_vcard`: one `(source, uid)` unit of work over
all targets, with a fresh `vcard_content` cache. -/
def handleVCard (cmp : ComparisonMethod) (now : Nat) (snap : TargetState)
    (targetIds : List String) (uid : String) (info : VCardEntry) (ts : TargetState) :
    UnitOutcome :=
  targetIds.foldl (handleVCardStep cmp now snap uid info) ⟨ts, 0, 0, 0, 0, none⟩

/-- The unit loop of a merge pass: process the units against the fixed
snapshot `snap`, threading the live target state and the upload count. -/
def mergeFold (cmp : ComparisonMethod) (now : Nat) (snap : TargetState)
    (targetIds : List String) (units : List (String × VCardEntry))
    (acc : TargetState × Nat) : TargetState × Nat :=
  units.foldl
    (fun a u =>
      let o := handleVCard cmp now snap targetIds u.1 u.2 a.1
      (o.state, a.2 + o.uploads))
    acc

/-- One merge pass over an already-flattened unit list (`merge_all_sources`
after `initialize`): the snapshot is the state at the start of the pass; the
result is the final target state and the total number of target uploads. -/
def mergeUnits (cmp : ComparisonMethod) (now : Nat) (units : List (String × VCardEntry))
    (targetIds : List String) (ts : TargetState) : TargetState × Nat :=
  mergeFold cmp now ts targetIds units (ts, 0)

/-- `AddressBookMerger.do_merge`: fetch fresh snapshots, then merge every
source into every target. -/
def doMerge (cmp : ComparisonMethod) (now : Nat)
    (sources : List (List (String × VCardEntry))) (targetIds : List String)
    (ts : TargetState) : TargetState × Nat :=
  mergeUnits cmp now sources.flatten targetIds ts

/-- All source units agree on the body of any UID they share (holds in
particular when no UID occurs in two sources). -/
def ContentCompatible (units : List (String × VCardEntry)) : Prop :=
  ∀ u ∈ units, ∀ v ∈ units, u.1 = v.1 → u.2.content = v.2.content

instance (units : List (String × VCardEntry)) : Decidable (ContentCompatible units) := by
  unfold ContentCompatible
  exact List.decidableBAll _ _

/-! ## Enricher (`abm/_enricher.py`)

Claim C7 concerns the primary-phone derivation at the top of `enrich_vcard`
(`phone = number.value` in a loop that breaks on `number.type_param ==
["CELL"]`). -/

/-- One `TEL` content line: its value and its `TYPE` parameter list. -/
structure TelEntry where
  value : String
  type_param : List String
  deriving DecidableEq, Repr

/-- The primary-phone loop of `VCardEnricher.enrich_vcard`: `phone` is
reassigned to each number's value in turn and the loop breaks at the first
number whose `TYPE` parameter list is exactly `["CELL"]`. -/
def derivePrimaryPhone : List TelEntry → Option String
  | [] => none
  | [t] => some t.value
  | t :: rest =>
    if t.type_param = ["CELL"] then some t.value else derivePrimaryPhone rest

/-! # Claims -/

/-! ## Shared lemmas about the index update -/

/-- The documented index invariant: at most one entry per phone number. -/
def DistinctPhones (col : StoredProfilePictureInfoCollection) : Prop :=
  col.profile_pictures.Pairwise fun a b => a.phone_number ≠ b.phone_number

instance (col : StoredProfilePictureInfoCollection) : Decidable (DistinctPhones col) :=
  List.instDecidablePairwise _

/-- `find?` specialised to the phone-number key. -/
def findPhone (phone : String) (l : List StoredProfilePictureInfo) :
    Option StoredProfilePictureInfo :=
  l.find? fun pic => pic.phone_number = phone

theorem getByPhoneNumber_eq_findPhone (col : StoredProfilePictureInfoCollection)
    (phone : String) : col.getByPhoneNumber phone = findPhone phone col.profile_pictures := rfl

theorem findPhone_cons_pos {x : StoredProfilePictureInfo} {phone : String}
    (l : List StoredProfilePictureInfo) (h : x.phone_number = phone) :
    findPhone phone (x :: l) = some x := by
  unfold findPhone
  exact List.find?_cons_of_pos _ (by simpa using h)

theorem findPhone_cons_neg {x : StoredProfilePictureInfo} {phone : String}
    (l : List StoredProfilePictureInfo) (h : ¬ x.phone_number = phone) :
    findPhone phone (x :: l) = findPhone phone l := by
  unfold findPhone
  exact List.find?_cons_of_neg _ (by simpa using h)

/-- Unfolding: the loop keeps a non-matching head and recurses. -/
theorem updateLoop_cons_skip (phone : String) (hsh : Bytes) (x : StoredProfilePictureInfo)
    (rest : List StoredProfilePictureInfo) (h : ¬ x.phone_number = phone) :
    updateLoop phone hsh (x :: rest)
      = (x :: (updateLoop phone hsh rest).1, (updateLoop phone hsh rest).2) := by
  conv_lhs => rw [updateLoop.eq_def]
  dsimp only
  rw [if_neg h]

/-- Unfolding: a matching head with the new hash returns `None` at once. -/
theorem updateLoop_cons_found_eq (phone : String) (hsh : Bytes)
    (x : StoredProfilePictureInfo) (rest : List StoredProfilePictureInfo)
    (h : x.phone_number = phone) (hh : x.hash = hsh) :
    updateLoop phone hsh (x :: rest) = (x :: rest, true) := by
  conv_lhs => rw [updateLoop.eq_def]
  dsimp only
  rw [if_pos h, if_pos hh]

/-- Unfolding: a matching last element with a stale hash is removed. -/
theorem updateLoop_cons_found_ne_nil (phone : String) (hsh : Bytes)
    (x : StoredProfilePictureInfo) (h : x.phone_number = phone) (hh : ¬ x.hash = hsh) :
    updateLoop phone hsh [x] = ([], false) := by
  conv_lhs => rw [updateLoop.eq_def]
  dsimp only
  rw [if_pos h, if_neg hh]

/-- Unfolding: a matching head with a stale hash is removed and the element
shifted into its place is skipped (CPython remove-during-iteration). -/
theorem updateLoop_cons_found_ne_cons (phone : String) (hsh : Bytes)
    (x y : StoredProfilePictureInfo) (rest2 : List StoredProfilePictureInfo)
    (h : x.phone_number = phone) (hh : ¬ x.hash = hsh) :
    updateLoop phone hsh (x :: y :: rest2)
      = (y :: (updateLoop phone hsh rest2).1, (updateLoop phone hsh rest2).2) := by
  conv_lhs => rw [updateLoop.eq_def]
  dsimp only
  rw [if_pos h, if_neg hh]

/-- With no matching entry the update loop is the identity and does not
return early. -/
theorem updateLoop_of_no_match (phone : String) (hsh : Bytes)
    (l : List StoredProfilePictureInfo) (h : ∀ x ∈ l, ¬ x.phone_number = phone) :
    updateLoop phone hsh l = (l, false) := by
  induction l with
  | nil => rfl
  | cons x rest ih =>
    have hx := h x (by simp)
    rw [updateLoop_cons_skip phone hsh x rest hx, ih fun z hz => h z (by simp [hz])]

/-- When the first matching entry already carries the new hash, the loop
returns `None` immediately and the list is untouched. -/
theorem updateLoop_of_match_eq (phone : String) (hsh : Bytes)
    (l : List StoredProfilePictureInfo) (m : StoredProfilePictureInfo)
    (hfind : findPhone phone l = some m) (hm : m.hash = hsh) :
    updateLoop phone hsh l = (l, true) := by
  induction l with
  | nil => simp [findPhone] at hfind
  | cons x rest ih =>
    by_cases hx : x.phone_number = phone
    · rw [findPhone_cons_pos rest hx] at hfind
      obtain rfl : x = m := by injection hfind
      exact updateLoop_cons_found_eq phone hsh x rest hx hm
    · rw [findPhone_cons_neg rest hx] at hfind
      rw [updateLoop_cons_skip phone hsh x rest hx, ih hfind]

/-- Under the at-most-one-per-phone invariant, a matching entry with a
different hash is removed (the rest of the list is untouched) and the loop
does not return early. -/
theorem updateLoop_of_match_ne (phone : String) (hsh : Bytes)
    (l : List StoredProfilePictureInfo) (m : StoredProfilePictureInfo)
    (hpw : l.Pairwise fun a b => a.phone_number ≠ b.phone_number)
    (hfind : findPhone phone l = some m) (hm : ¬ m.hash = hsh) :
    updateLoop phone hsh l = (l.filter fun x => ¬ x.phone_number = phone, false) := by
  induction l with
  | nil => simp [findPhone] at hfind
  | cons x rest ih =>
    have hpwx := (List.pairwise_cons.mp hpw).1
    have hpwr := (List.pairwise_cons.mp hpw).2
    by_cases hx : x.phone_number = phone
    · rw [findPhone_cons_pos rest hx] at hfind
      obtain rfl : x = m := by injection hfind
      have hrest : ∀ z ∈ rest, ¬ z.phone_number = phone := by
        intro z hz hc
        exact hpwx z hz (hx.trans hc.symm)
      cases rest with
      | nil =>
        rw [updateLoop_cons_found_ne_nil phone hsh x hx hm]
        simp [hx]
      | cons y rest2 =>
        have h2 : ∀ z ∈ rest2, ¬ z.phone_number = phone := fun z hz =>
          hrest z (by simp [hz])
        rw [updateLoop_cons_found_ne_cons phone hsh x y rest2 hx hm,
          updateLoop_of_no_match phone hsh rest2 h2]
        have hy : ¬ y.phone_number = phone := hrest y (by simp)
        simp only [List.filter_cons, decide_eq_true_eq]
        rw [if_neg (by simpa using hx), if_pos (by simpa using hy)]
        have h2f : (rest2.filter fun z => ¬ z.phone_number = phone) = rest2 :=
          List.filter_eq_self.mpr fun z hz => by simpa using h2 z hz
        rw [h2f]
    · rw [findPhone_cons_neg rest hx] at hfind
      rw [updateLoop_cons_skip phone hsh x rest hx, ih hpwr hfind]
      simp only [List.filter_cons, decide_eq_true_eq]
      rw [if_pos (by simpa using hx)]

/-- The entry `update` derives from a record: its hash is the SHA-256 of the
photo bytes and its phone number is the record's. -/
theorem newEntry_fields (ppi : ProfilePictureInfo) :
    (StoredProfilePictureInfo.fromProfilePictureInfo ppi "./photos").hash = sha256 ppi.photo ∧
    (StoredProfilePictureInfo.fromProfilePictureInfo ppi "./photos").phone_number
      = ppi.phone_number :=
  ⟨rfl, rfl⟩

/-- Characterisation of `StoredProfilePictureInfoCollection.update` on
invariant-satisfying states, split by the state of the existing entry for the
record's phone number. -/
theorem update_char (col : StoredProfilePictureInfoCollection) (ppi : ProfilePictureInfo) :
    (col.getByPhoneNumber ppi.phone_number = none →
      col.update ppi =
        (⟨col.profile_pictures ++
            [StoredProfilePictureInfo.fromProfilePictureInfo ppi "./photos"]⟩,
         some (StoredProfilePictureInfo.fromProfilePictureInfo ppi "./photos"))) ∧
    (∀ m, col.getByPhoneNumber ppi.phone_number = some m → m.hash = sha256 ppi.photo →
      col.update ppi = (col, none)) ∧
    (∀ m, DistinctPhones col → col.getByPhoneNumber ppi.phone_number = some m →
      ¬ m.hash = sha256 ppi.photo →
      col.update ppi =
        (⟨(col.profile_pictures.filter fun x => ¬ x.phone_number = ppi.phone_number) ++
            [StoredProfilePictureInfo.fromProfilePictureInfo ppi "./photos"]⟩,
         some (StoredProfilePictureInfo.fromProfilePictureInfo ppi "./photos"))) := by
  have hh : (StoredProfilePictureInfo.fromProfilePictureInfo ppi "./photos").hash
      = sha256 ppi.photo := rfl
  refine ⟨?_, ?_, ?_⟩
  · intro hnone
    rw [getByPhoneNumber_eq_findPhone] at hnone
    have hno : ∀ x ∈ col.profile_pictures, ¬ x.phone_number = ppi.phone_number := by
      intro x hx hc
      have := List.find?_eq_none.mp hnone x hx
      simp [hc] at this
    simp only [StoredProfilePictureInfoCollection.update, hh,
      updateLoop_of_no_match _ _ _ hno]
    simp
  · intro m hfind hm
    rw [getByPhoneNumber_eq_findPhone] at hfind
    simp only [StoredProfilePictureInfoCollection.update, hh,
      updateLoop_of_match_eq _ _ _ m hfind hm]
    simp
  · intro m hpw hfind hm
    rw [getByPhoneNumber_eq_findPhone] at hfind
    simp only [StoredProfilePictureInfoCollection.update, hh,
      updateLoop_of_match_ne _ _ _ m hpw hfind hm]
    simp

/-- First-match lookup over an append whose left part has no match. -/
theorem findPhone_append_last (phone : String) (l : List StoredProfilePictureInfo)
    (e : StoredProfilePictureInfo) (hl : ∀ x ∈ l, ¬ x.phone_number = phone)
    (he : e.phone_number = phone) : findPhone phone (l ++ [e]) = some e := by
  induction l with
  | nil => exact findPhone_cons_pos [] he
  | cons x rest ih =>
    rw [List.cons_append, findPhone_cons_neg _ (hl x (by simp))]
    exact ih fun z hz => hl z (by simp [hz])

/-- Entries kept by the phone filter do not match the phone. -/
theorem filter_no_match (phone : String) (l : List StoredProfilePictureInfo) :
    ∀ x ∈ l.filter (fun x => ¬ x.phone_number = phone), ¬ x.phone_number = phone := by
  intro x hx
  simpa using List.of_mem_filter hx

/-! ## C8: index update invariant -/

/-- C8.  On a collection with at most one entry per phone number, `update`
preserves the invariant; when the stored entry for the record's phone number
carries the same hash the collection is left untouched (and `None` returned),
and when the hash differs the matching entry is replaced (removed, with the
freshly derived entry appended). -/
theorem claim_C8 (col : StoredProfilePictureInfoCollection) (ppi : ProfilePictureInfo)
    (hpw : DistinctPhones col) :
    DistinctPhones (col.update ppi).1 ∧
    (∀ m, col.getByPhoneNumber ppi.phone_number = some m →
      (m.hash = sha256 ppi.photo → col.update ppi = (col, none)) ∧
      (¬ m.hash = sha256 ppi.photo →
        (col.update ppi).1.profile_pictures =
          (col.profile_pictures.filter fun x => ¬ x.phone_number = ppi.phone_number) ++
            [StoredProfilePictureInfo.fromProfilePictureInfo ppi "./photos"])) := by
  have hchar := update_char col ppi
  have hnewphone : (StoredProfilePictureInfo.fromProfilePictureInfo ppi "./photos").phone_number
      = ppi.phone_number := rfl
  constructor
  · cases hfind : col.getByPhoneNumber ppi.phone_number with
    | none =>
      rw [hchar.1 hfind]
      have hno : ∀ x ∈ col.profile_pictures, ¬ x.phone_number = ppi.phone_number := by
        intro x hx hc
        rw [getByPhoneNumber_eq_findPhone] at hfind
        have := List.find?_eq_none.mp hfind x hx
        simp [hc] at this
      refine List.pairwise_append.mpr ⟨hpw, by simp, ?_⟩
      intro a ha b hb
      rw [List.mem_singleton.mp hb, hnewphone]
      exact hno a ha
    | some m =>
      by_cases hm : m.hash = sha256 ppi.photo
      · rw [(hchar.2.1 m hfind hm)]
        exact hpw
      · rw [hchar.2.2 m hpw hfind hm]
        unfold DistinctPhones
        refine List.pairwise_append.mpr ⟨?_, by simp, ?_⟩
        · exact List.Pairwise.sublist (List.filter_sublist _) hpw
        · intro a ha b hb
          rw [List.mem_singleton.mp hb, hnewphone]
          exact filter_no_match ppi.phone_number col.profile_pictures a ha
  · intro m hfind
    refine ⟨fun hm => hchar.2.1 m hfind hm, fun hm => ?_⟩
    rw [hchar.2.2 m hpw hfind hm]

/-- C8, witness: replacing the single stale entry of a one-entry index keeps
the invariant. -/
theorem claim_C8_witness :
    DistinctPhones (StoredProfilePictureInfoCollection.update
      ⟨[⟨"+491234", "image/jpeg", "photos/a.jpeg", [9]⟩]⟩
      ⟨"+491234", [0], "image/jpeg"⟩).1 :=
  (claim_C8 ⟨[⟨"+491234", "image/jpeg", "photos/a.jpeg", [9]⟩]⟩
    ⟨"+491234", [0], "image/jpeg"⟩ (by decide)).1

/-! ## C3: content-hash dedup of photo uploads -/

/-- When the stored entry for the record's phone number already carries the
record's content hash, `_update_profile_picture` neither uploads nor changes
the state. -/
theorem step_noop_of_uptodate (col : StoredProfilePictureInfoCollection)
    (ppi : ProfilePictureInfo) (m : StoredProfilePictureInfo)
    (hfind : col.getByPhoneNumber ppi.phone_number = some m)
    (hm : m.hash = sha256 ppi.photo) :
    updateProfilePictureStep col ppi = (col, []) := by
  unfold updateProfilePictureStep
  rw [(update_char col ppi).2.1 m hfind hm]

/-- After one `_update_profile_picture`, the stored entry for the record's
phone number carries the record's content hash, and the invariant is kept. -/
theorem updateStep_establishes (col : StoredProfilePictureInfoCollection)
    (ppi : ProfilePictureInfo) (hpw : DistinctPhones col) :
    DistinctPhones (updateProfilePictureStep col ppi).1 ∧
    ∃ m, (updateProfilePictureStep col ppi).1.getByPhoneNumber ppi.phone_number = some m ∧
      m.hash = sha256 ppi.photo := by
  have hchar := update_char col ppi
  have hC8 := claim_C8 col ppi hpw
  have hstate : (updateProfilePictureStep col ppi).1 = (col.update ppi).1 := by
    unfold updateProfilePictureStep
    cases h : col.update ppi with
    | mk c r => cases r <;> simp
  refine ⟨hstate ▸ hC8.1, ?_⟩
  cases hfind : col.getByPhoneNumber ppi.phone_number with
  | none =>
    have hpics : (updateProfilePictureStep col ppi).1.profile_pictures
        = col.profile_pictures ++
          [StoredProfilePictureInfo.fromProfilePictureInfo ppi "./photos"] := by
      rw [hstate, hchar.1 hfind]
    refine ⟨StoredProfilePictureInfo.fromProfilePictureInfo ppi "./photos", ?_, rfl⟩
    rw [getByPhoneNumber_eq_findPhone, hpics]
    refine findPhone_append_last _ _ _ ?_ rfl
    intro x hx hc
    rw [getByPhoneNumber_eq_findPhone] at hfind
    have := List.find?_eq_none.mp hfind x hx
    simp [hc] at this
  | some m =>
    by_cases hm : m.hash = sha256 ppi.photo
    · have : (updateProfilePictureStep col ppi).1 = col := by
        rw [hstate, hchar.2.1 m hfind hm]
      rw [this]
      exact ⟨m, hfind, hm⟩
    · have hpics : (updateProfilePictureStep col ppi).1.profile_pictures
          = (col.profile_pictures.filter fun x => ¬ x.phone_number = ppi.phone_number) ++
            [StoredProfilePictureInfo.fromProfilePictureInfo ppi "./photos"] := by
        rw [hstate, hchar.2.2 m hpw hfind hm]
      refine ⟨StoredProfilePictureInfo.fromProfilePictureInfo ppi "./photos", ?_, rfl⟩
      rw [getByPhoneNumber_eq_findPhone, hpics]
      exact findPhone_append_last _ _ _ (filter_no_match _ _) rfl

/-- C3.  A record whose bytes hash to the digest already stored for its phone
number causes no photo upload and leaves the index state untouched; hence
running `_update_profile_picture` a second time with the same record (same
batch or a later one: the state persists) performs no upload and no change. -/
theorem claim_C3 (col : StoredProfilePictureInfoCollection) (ppi : ProfilePictureInfo) :
    (∀ m, col.getByPhoneNumber ppi.phone_number = some m → m.hash = sha256 ppi.photo →
      updateProfilePictureStep col ppi = (col, [])) ∧
    (DistinctPhones col →
      updateProfilePictureStep (updateProfilePictureStep col ppi).1 ppi
        = ((updateProfilePictureStep col ppi).1, [])) := by
  refine ⟨fun m hfind hm => step_noop_of_uptodate col ppi m hfind hm, fun hpw => ?_⟩
  obtain ⟨_, m, hfind, hm⟩ := updateStep_establishes col ppi hpw
  exact step_noop_of_uptodate _ ppi m hfind hm

/-- C3, witness: a record whose digest is already stored causes no upload,
and uploading into an empty index then submitting the same bytes again
uploads nothing the second time. -/
theorem claim_C3_witness :
    updateProfilePictureStep
        ⟨[⟨"+491234", "image/jpeg", "./photos/+491234.jpeg", sha256 [7]⟩]⟩
        ⟨"+491234", [7], "image/jpeg"⟩
      = (⟨[⟨"+491234", "image/jpeg", "./photos/+491234.jpeg", sha256 [7]⟩]⟩, []) ∧
    updateProfilePictureStep
        (updateProfilePictureStep ⟨[]⟩ ⟨"+491234", [7], "image/jpeg"⟩).1
        ⟨"+491234", [7], "image/jpeg"⟩
      = ((updateProfilePictureStep ⟨[]⟩ ⟨"+491234", [7], "image/jpeg"⟩).1, []) :=
  ⟨(claim_C3 ⟨[⟨"+491234", "image/jpeg", "./photos/+491234.jpeg", sha256 [7]⟩]⟩
      ⟨"+491234", [7], "image/jpeg"⟩).1
      ⟨"+491234", "image/jpeg", "./photos/+491234.jpeg", sha256 [7]⟩ rfl rfl,
   (claim_C3 ⟨[]⟩ ⟨"+491234", [7], "image/jpeg"⟩).2 (by decide)⟩

/-! ## C1: dedup of the merged crawler sequence -/

/-- C1.  The claim (and the docstring of `ProfilePictureUploader`) says both
batch consumers drop later records for an already-seen phone number; the
picture-index pass `update_from_iterator` has no such dedup.  Evaluation at a
failing input: two records for the same phone number with different bytes (and
hence different SHA-256 digests); the run performs **two** photo uploads and
the final index holds the **second** record's hash — the later duplicate was
acted upon (last-writer-wins), not dropped. -/
theorem claim_C1 :
    (updateFromIterator ⟨[]⟩
        [⟨"+491234", [0], "image/jpeg"⟩, ⟨"+491234", [1], "image/jpeg"⟩]).2.length = 2 ∧
    (updateFromIterator ⟨[]⟩
        [⟨"+491234", [0], "image/jpeg"⟩, ⟨"+491234", [1], "image/jpeg"⟩]).1.profile_pictures.map
        StoredProfilePictureInfo.hash = [sha256 [1]] ∧
    ¬ sha256 [1] = sha256 [0] := by
  refine ⟨?_, ?_, by decide⟩ <;> decide

/-! ## Shared lemmas about the merger -/

/-- `upload_vcard` writes exactly one entry of one target. -/
theorem setVCard_cases (ts : TargetState) (tid uid : String) (e : VCardEntry)
    (t u : String) :
    setVCard ts tid uid e t u = ts t u ∨ (u = uid ∧ setVCard ts tid uid e t u = some e) := by
  by_cases h : t = tid ∧ u = uid
  · exact Or.inr ⟨h.2, by simp [setVCard, h]⟩
  · exact Or.inl (by simp [setVCard, h])

/-- The upload tail: the body comes from the cache (filled from the source on
first use), so the uploaded entry always carries the source content; the cache
is filled at most once, each fill costing one source download. -/
theorem uploadStep_spec (now : Nat) (tid uid : String) (info : VCardEntry) (acc : UnitOutcome)
    (hc : acc.cache = none ∨ acc.cache = some info.content) :
    (uploadStep now tid uid info acc).cache = some info.content ∧
    (uploadStep now tid uid info acc).compares = acc.compares ∧
    ((uploadStep now tid uid info acc).sourceDownloads + acc.cacheFills
      = acc.sourceDownloads + (uploadStep now tid uid info acc).cacheFills) ∧
    (((uploadStep now tid uid info acc).cache = acc.cache ∧
        (uploadStep now tid uid info acc).cacheFills = acc.cacheFills) ∨
      (acc.cache = none ∧
        (uploadStep now tid uid info acc).cache = some info.content ∧
        (uploadStep now tid uid info acc).cacheFills = acc.cacheFills + 1)) ∧
    (∀ t u, (uploadStep now tid uid info acc).state t u = acc.state t u ∨
      (u = uid ∧ (uploadStep now tid uid info acc).state t u
        = some ⟨now, info.content⟩)) := by
  obtain ⟨st, up, co, cf, sd, cash⟩ := acc
  rcases hc with hc | hc <;> simp only at hc <;> subst hc
  · exact ⟨rfl, rfl, by dsimp only [uploadStep, fillCache]; omega, Or.inr ⟨rfl, rfl, rfl⟩,
      fun t u => setVCard_cases st tid uid _ t u⟩
  · exact ⟨rfl, rfl, rfl, Or.inl ⟨rfl, rfl⟩,
      fun t u => setVCard_cases st tid uid _ t u⟩

/-- The upload tail writes the source body at the unit's own slot. -/
theorem uploadStep_writes_self (now : Nat) (tid uid : String) (info : VCardEntry)
    (acc : UnitOutcome) (hc : acc.cache = none ∨ acc.cache = some info.content) :
    (uploadStep now tid uid info acc).state tid uid = some ⟨now, info.content⟩ := by
  obtain ⟨st, up, co, cf, sd, cash⟩ := acc
  rcases hc with hc | hc <;> simp only at hc <;> subst hc <;>
    simp [uploadStep, fillCache, setVCard]

/-- One `_handle_vcard` target step: the cache only ever holds the source
body; source downloads grow exactly by comparisons plus cache fills; the cache
is filled at most once per step (and only when empty); the live state changes
at most at the unit's own UID, and any write stores the source body. -/
theorem handleVCardStep_spec (cmp : ComparisonMethod) (now : Nat) (snap : TargetState)
    (uid : String) (info : VCardEntry) (acc : UnitOutcome) (tid : String)
    (hc : acc.cache = none ∨ acc.cache = some info.content) :
    ((handleVCardStep cmp now snap uid info acc tid).cache = none ∨
      (handleVCardStep cmp now snap uid info acc tid).cache = some info.content) ∧
    ((handleVCardStep cmp now snap uid info acc tid).sourceDownloads + acc.compares
        + acc.cacheFills
      = acc.sourceDownloads + (handleVCardStep cmp now snap uid info acc tid).compares
        + (handleVCardStep cmp now snap uid info acc tid).cacheFills) ∧
    (((handleVCardStep cmp now snap uid info acc tid).cache = acc.cache ∧
        (handleVCardStep cmp now snap uid info acc tid).cacheFills = acc.cacheFills) ∨
      (acc.cache = none ∧
        (handleVCardStep cmp now snap uid info acc tid).cache = some info.content ∧
        (handleVCardStep cmp now snap uid info acc tid).cacheFills = acc.cacheFills + 1)) ∧
    (∀ t u, (handleVCardStep cmp now snap uid info acc tid).state t u = acc.state t u ∨
      (u = uid ∧
        (handleVCardStep cmp now snap uid info acc tid).state t u
          = some ⟨now, info.content⟩)) := by
  obtain ⟨st, up, co, cf, sd, cash⟩ := acc
  unfold handleVCardStep
  cases hsnap : snap tid uid with
  | some tinfo =>
    dsimp only
    by_cases hfresh : cmp = ComparisonMethod.edit_date ∧
        info.lastModified ≤ tinfo.lastModified
    · rw [if_pos hfresh]
      exact ⟨hc, by dsimp only, Or.inl ⟨rfl, rfl⟩, fun t u => Or.inl rfl⟩
    · rw [if_neg hfresh]
      by_cases heq : (st tid uid).map VCardEntry.content = some info.content
      · rw [if_pos heq]
        exact ⟨hc, by dsimp only; omega, Or.inl ⟨rfl, rfl⟩, fun t u => Or.inl rfl⟩
      · rw [if_neg heq]
        have hus := uploadStep_spec now tid uid info ⟨st, up, co + 1, cf, sd + 1, cash⟩
          (by simpa using hc)
        have h1 := hus.2.1
        have h2 := hus.2.2.1
        dsimp only at h1 h2
        refine ⟨Or.inr hus.1, by omega, ?_, hus.2.2.2.2⟩
        rcases hus.2.2.2.1 with ⟨hcach, hcf⟩ | ⟨hnone, hcs, hcf⟩
        · exact Or.inl ⟨hcach, by simpa using hcf⟩
        · exact Or.inr ⟨by simpa using hnone, hcs, by simpa using hcf⟩
  | none =>
    dsimp only
    have hus := uploadStep_spec now tid uid info ⟨st, up, co, cf, sd, cash⟩ hc
    have h1 := hus.2.1
    have h2 := hus.2.2.1
    dsimp only at h1 h2
    exact ⟨Or.inr hus.1, by omega, hus.2.2.2.1, hus.2.2.2.2⟩

/-- The whole per-unit target loop, by induction over the target list:
cache discipline, download accounting and the write footprint. -/
theorem handleVCard_fold_spec (cmp : ComparisonMethod) (now : Nat) (snap : TargetState)
    (uid : String) (info : VCardEntry) (tids : List String) (acc : UnitOutcome)
    (hc : acc.cache = none ∨ acc.cache = some info.content) :
    ((tids.foldl (handleVCardStep cmp now snap uid info) acc).cache = none ∨
      (tids.foldl (handleVCardStep cmp now snap uid info) acc).cache = some info.content) ∧
    ((tids.foldl (handleVCardStep cmp now snap uid info) acc).sourceDownloads + acc.compares
        + acc.cacheFills
      = acc.sourceDownloads
        + (tids.foldl (handleVCardStep cmp now snap uid info) acc).compares
        + (tids.foldl (handleVCardStep cmp now snap uid info) acc).cacheFills) ∧
    (((tids.foldl (handleVCardStep cmp now snap uid info) acc).cacheFills = acc.cacheFills) ∨
      (acc.cache = none ∧
        (tids.foldl (handleVCardStep cmp now snap uid info) acc).cacheFills
          = acc.cacheFills + 1)) ∧
    (acc.cache = some info.content →
      (tids.foldl (handleVCardStep cmp now snap uid info) acc).cacheFills = acc.cacheFills) ∧
    (∀ t u, (tids.foldl (handleVCardStep cmp now snap uid info) acc).state t u = acc.state t u ∨
      (u = uid ∧
        (tids.foldl (handleVCardStep cmp now snap uid info) acc).state t u
          = some ⟨now, info.content⟩)) := by
  induction tids generalizing acc with
  | nil =>
    exact ⟨hc, rfl, Or.inl rfl, fun _ => rfl, fun t u => Or.inl rfl⟩
  | cons hd rest ih =>
    rw [List.foldl_cons]
    have hstep := handleVCardStep_spec cmp now snap uid info acc hd hc
    have hrest := ih (handleVCardStep cmp now snap uid info acc hd) hstep.1
    refine ⟨hrest.1, ?_, ?_, ?_, ?_⟩
    · have h1 := hstep.2.1
      have h2 := hrest.2.1
      omega
    · rcases hstep.2.2.1 with ⟨hcach, hcf⟩ | ⟨hnone, hcs, hcf⟩
      · rcases hrest.2.2.1 with hocf | ⟨ha2none, hocf⟩
        · exact Or.inl (by omega)
        · exact Or.inr ⟨hcach ▸ ha2none, by omega⟩
      · have hocf := hrest.2.2.2.1 hcs
        exact Or.inr ⟨hnone, by omega⟩
    · intro hsome
      rcases hstep.2.2.1 with ⟨hcach, hcf⟩ | ⟨hnone, hcs, hcf⟩
      · have := hrest.2.2.2.1 (hcach.trans hsome)
        omega
      · rw [hsome] at hnone
        cases hnone
    · intro t u
      rcases hrest.2.2.2.2 t u with h | h
      · rcases hstep.2.2.2 t u with h2 | h2
        · exact Or.inl (h.trans h2)
        · exact Or.inr ⟨h2.1, h.trans h2.2⟩
      · exact Or.inr h

/-- When for every target the snapshot already satisfies a skip condition
(fresh timestamp under `EDIT_DATE`, or identical content) and the live state
equals the snapshot, the unit uploads nothing and changes nothing. -/
theorem handleVCard_fold_skip (cmp : ComparisonMethod) (now : Nat) (snap : TargetState)
    (uid : String) (info : VCardEntry) (tids : List String) (acc : UnitOutcome)
    (hsk : ∀ tid ∈ tids, ∃ e, snap tid uid = some e ∧
      ((cmp = ComparisonMethod.edit_date ∧ info.lastModified ≤ e.lastModified) ∨
        e.content = info.content))
    (hst : acc.state = snap) :
    (tids.foldl (handleVCardStep cmp now snap uid info) acc).state = snap ∧
    (tids.foldl (handleVCardStep cmp now snap uid info) acc).uploads = acc.uploads := by
  induction tids generalizing acc with
  | nil => exact ⟨hst, rfl⟩
  | cons hd rest ih =>
    obtain ⟨e, he, hcond⟩ := hsk hd (by simp)
    have hsk2 : ∀ tid ∈ rest, ∃ e2, snap tid uid = some e2 ∧
        ((cmp = ComparisonMethod.edit_date ∧ info.lastModified ≤ e2.lastModified) ∨
          e2.content = info.content) := fun tid h => hsk tid (by simp [h])
    rw [List.foldl_cons]
    have hstep : (handleVCardStep cmp now snap uid info acc hd).state = acc.state ∧
        (handleVCardStep cmp now snap uid info acc hd).uploads = acc.uploads := by
      unfold handleVCardStep
      rw [he]
      dsimp only
      by_cases hfresh : cmp = ComparisonMethod.edit_date ∧
          info.lastModified ≤ e.lastModified
      · rw [if_pos hfresh]
        exact ⟨rfl, rfl⟩
      · rw [if_neg hfresh]
        have hcnt : e.content = info.content := by
          rcases hcond with h | h
          · exact absurd h hfresh
          · exact h
        have heq : (acc.state hd uid).map VCardEntry.content = some info.content := by
          rw [hst, he]
          simp [hcnt]
        rw [if_pos heq]
        exact ⟨rfl, rfl⟩
    have hrest := ih (handleVCardStep cmp now snap uid info acc hd) hsk2
      (hstep.1.trans hst)
    exact ⟨hrest.1, hrest.2.trans hstep.2⟩

/-- A whole merge pass over units that all satisfy the skip condition
performs zero uploads and leaves the state untouched. -/
theorem mergeFold_skip (cmp : ComparisonMethod) (now : Nat) (snap : TargetState)
    (tids : List String) (units : List (String × VCardEntry)) (acc : TargetState × Nat)
    (hsk : ∀ u ∈ units, ∀ tid ∈ tids, ∃ e, snap tid u.1 = some e ∧
      ((cmp = ComparisonMethod.edit_date ∧ u.2.lastModified ≤ e.lastModified) ∨
        e.content = u.2.content))
    (hst : acc.1 = snap) :
    (mergeFold cmp now snap tids units acc).1 = snap ∧
    (mergeFold cmp now snap tids units acc).2 = acc.2 := by
  induction units generalizing acc with
  | nil => exact ⟨hst, rfl⟩
  | cons u0 rest ih =>
    have h0 := handleVCard_fold_skip cmp now snap u0.1 u0.2 tids
      ⟨acc.1, 0, 0, 0, 0, none⟩ (fun tid ht => hsk u0 (by simp) tid ht) hst
    have hstate : (handleVCard cmp now snap tids u0.1 u0.2 acc.1).state = snap := h0.1
    have hup : (handleVCard cmp now snap tids u0.1 u0.2 acc.1).uploads = 0 := h0.2
    have hrest := ih
      ((handleVCard cmp now snap tids u0.1 u0.2 acc.1).state,
        acc.2 + (handleVCard cmp now snap tids u0.1 u0.2 acc.1).uploads)
      (fun u hu tid ht => hsk u (by simp [hu]) tid ht) hstate
    refine ⟨hrest.1, ?_⟩
    have h2 : (mergeFold cmp now snap tids (u0 :: rest) acc).2
        = acc.2 + (handleVCard cmp now snap tids u0.1 u0.2 acc.1).uploads := hrest.2
    rw [h2, hup, Nat.add_zero]

/-- A merge pass only ever writes entries carrying some unit's source body
stamped with the pass's upload time. -/
theorem mergeFold_writes (cmp : ComparisonMethod) (now : Nat) (snap : TargetState)
    (tids : List String) (units : List (String × VCardEntry)) (acc : TargetState × Nat) :
    ∀ t u2, (mergeFold cmp now snap tids units acc).1 t u2 = acc.1 t u2 ∨
      ∃ i2, (u2, i2) ∈ units ∧
        (mergeFold cmp now snap tids units acc).1 t u2 = some ⟨now, i2.content⟩ := by
  induction units generalizing acc with
  | nil => exact fun t u2 => Or.inl rfl
  | cons u0 rest ih =>
    intro t u2
    have hh := ih
      ((handleVCard cmp now snap tids u0.1 u0.2 acc.1).state,
        acc.2 + (handleVCard cmp now snap tids u0.1 u0.2 acc.1).uploads) t u2
    have hunit := (handleVCard_fold_spec cmp now snap u0.1 u0.2 tids
      ⟨acc.1, 0, 0, 0, 0, none⟩ (Or.inl rfl)).2.2.2.2 t u2
    have hcast : (mergeFold cmp now snap tids (u0 :: rest) acc).1
        = (mergeFold cmp now snap tids rest
            ((handleVCard cmp now snap tids u0.1 u0.2 acc.1).state,
              acc.2 + (handleVCard cmp now snap tids u0.1 u0.2 acc.1).uploads)).1 := rfl
    rw [hcast]
    rcases hh with hh | ⟨i2, hi2, hval⟩
    · rcases hunit with hu | ⟨huid, hval⟩
      · exact Or.inl (hh.trans hu)
      · exact Or.inr ⟨u0.2, by rw [huid]; simp, hh.trans hval⟩
    · exact Or.inr ⟨i2, by simp [hi2], hval⟩

/-- After its own unit runs, every target holds either a fresh-enough
snapshot entry (under `EDIT_DATE`) or the unit's source content — provided
the live state started out snapshot-clean or already content-correct at the
unit's UID. -/
theorem handleVCard_fold_establish (cmp : ComparisonMethod) (now : Nat) (ts0 : TargetState)
    (uid : String) (info : VCardEntry) (tids : List String) (acc : UnitOutcome)
    (hc : acc.cache = none ∨ acc.cache = some info.content)
    (hJ : ∀ t, acc.state t uid = ts0 t uid ∨
      (acc.state t uid).map VCardEntry.content = some info.content) :
    ∀ tid ∈ tids, ∃ e,
      (tids.foldl (handleVCardStep cmp now ts0 uid info) acc).state tid uid = some e ∧
      ((cmp = ComparisonMethod.edit_date ∧ info.lastModified ≤ e.lastModified) ∨
        e.content = info.content) := by
  induction tids generalizing acc with
  | nil =>
    intro tid h
    cases h
  | cons hd rest ih =>
    intro tid htid
    have hstep := handleVCardStep_spec cmp now ts0 uid info acc hd hc
    have hJ2 : ∀ t, (handleVCardStep cmp now ts0 uid info acc hd).state t uid = ts0 t uid ∨
        ((handleVCardStep cmp now ts0 uid info acc hd).state t uid).map VCardEntry.content
          = some info.content := by
      intro t
      rcases hstep.2.2.2 t uid with h | h
      · rw [h]
        exact hJ t
      · rw [h.2]
        exact Or.inr (by simp)
    rw [List.foldl_cons]
    rcases List.mem_cons.mp htid with rfl | hmem
    · have hq : ∃ e, (handleVCardStep cmp now ts0 uid info acc tid).state tid uid = some e ∧
          ((cmp = ComparisonMethod.edit_date ∧ info.lastModified ≤ e.lastModified) ∨
            e.content = info.content) := by
        unfold handleVCardStep
        cases hsnap : ts0 tid uid with
        | some tinfo =>
          dsimp only
          by_cases hfresh : cmp = ComparisonMethod.edit_date ∧
              info.lastModified ≤ tinfo.lastModified
          · rw [if_pos hfresh]
            rcases hJ tid with h | h
            · rw [h, hsnap]
              exact ⟨tinfo, rfl, Or.inl hfresh⟩
            · cases hv : acc.state tid uid with
              | none => simp [hv] at h
              | some e2 =>
                rw [hv] at h
                simp only [Option.map_some'] at h
                exact ⟨e2, rfl, Or.inr (by injection h)⟩
          · rw [if_neg hfresh]
            by_cases heq : (acc.state tid uid).map VCardEntry.content = some info.content
            · rw [if_pos heq]
              cases hv : acc.state tid uid with
              | none => simp [hv] at heq
              | some e2 =>
                rw [hv] at heq
                simp only [Option.map_some'] at heq
                exact ⟨e2, rfl, Or.inr (by injection heq)⟩
            · rw [if_neg heq]
              refine ⟨⟨now, info.content⟩, ?_, Or.inr rfl⟩
              exact uploadStep_writes_self now tid uid info _ (by simpa using hc)
        | none =>
          dsimp only
          refine ⟨⟨now, info.content⟩, ?_, Or.inr rfl⟩
          exact uploadStep_writes_self now tid uid info acc hc
      obtain ⟨e, he, hcond⟩ := hq
      have hrest := (handleVCard_fold_spec cmp now ts0 uid info rest
        (handleVCardStep cmp now ts0 uid info acc tid) hstep.1).2.2.2.2 tid uid
      rcases hrest with h | h
      · exact ⟨e, h.trans he, hcond⟩
      · exact ⟨⟨now, info.content⟩, h.2, Or.inr rfl⟩
    · exact ih (handleVCardStep cmp now ts0 uid info acc hd) hstep.1 hJ2 tid hmem

/-- Run-1 postcondition: after a merge pass from a snapshot-clean start, for
every unit and every target the final state satisfies the skip condition of a
second pass, provided the units are content-compatible. -/
theorem mergeFold_establish (cmp : ComparisonMethod) (now : Nat) (ts0 : TargetState)
    (tids : List String) (allUnits : List (String × VCardEntry))
    (hcc : ContentCompatible allUnits) :
    ∀ units : List (String × VCardEntry), (∀ u ∈ units, u ∈ allUnits) →
    ∀ acc : TargetState × Nat,
    (∀ t u2, acc.1 t u2 = ts0 t u2 ∨
      ∃ i2, (u2, i2) ∈ allUnits ∧ acc.1 t u2 = some ⟨now, i2.content⟩) →
    ∀ u ∈ units, ∀ tid ∈ tids, ∃ e,
      (mergeFold cmp now ts0 tids units acc).1 tid u.1 = some e ∧
      ((cmp = ComparisonMethod.edit_date ∧ u.2.lastModified ≤ e.lastModified) ∨
        e.content = u.2.content) := by
  intro units
  induction units with
  | nil =>
    intro _ acc _ u hu
    cases hu
  | cons u0 rest ih =>
    intro hsub acc hJ u hu tid htid
    have hu0all : u0 ∈ allUnits := hsub u0 (by simp)
    have hJ0 : ∀ t, acc.1 t u0.1 = ts0 t u0.1 ∨
        (acc.1 t u0.1).map VCardEntry.content = some u0.2.content := by
      intro t
      rcases hJ t u0.1 with h | ⟨i2, hi2, hval⟩
      · exact Or.inl h
      · refine Or.inr ?_
        rw [hval]
        have : i2.content = u0.2.content := hcc (u0.1, i2) hi2 u0 hu0all rfl
        simp [this]
    have hJnew : ∀ t u2,
        ((handleVCard cmp now ts0 tids u0.1 u0.2 acc.1).state,
          acc.2 + (handleVCard cmp now ts0 tids u0.1 u0.2 acc.1).uploads).1 t u2
          = ts0 t u2 ∨
        ∃ i2, (u2, i2) ∈ allUnits ∧
          ((handleVCard cmp now ts0 tids u0.1 u0.2 acc.1).state,
            acc.2 + (handleVCard cmp now ts0 tids u0.1 u0.2 acc.1).uploads).1 t u2
            = some ⟨now, i2.content⟩ := by
      intro t u2
      have hw := (handleVCard_fold_spec cmp now ts0 u0.1 u0.2 tids
        ⟨acc.1, 0, 0, 0, 0, none⟩ (Or.inl rfl)).2.2.2.2 t u2
      rcases hw with h | ⟨huid, hval⟩
      · rcases hJ t u2 with h2 | ⟨i2, hi2, hval2⟩
        · exact Or.inl (h.trans h2)
        · exact Or.inr ⟨i2, hi2, h.trans hval2⟩
      · subst huid
        exact Or.inr ⟨u0.2, hu0all, hval⟩
    have hcast : (mergeFold cmp now ts0 tids (u0 :: rest) acc).1
        = (mergeFold cmp now ts0 tids rest
            ((handleVCard cmp now ts0 tids u0.1 u0.2 acc.1).state,
              acc.2 + (handleVCard cmp now ts0 tids u0.1 u0.2 acc.1).uploads)).1 := rfl
    rw [hcast]
    rcases List.mem_cons.mp hu with rfl | hmem
    · have hq := handleVCard_fold_establish cmp now ts0 u.1 u.2 tids
        ⟨acc.1, 0, 0, 0, 0, none⟩ (Or.inl rfl) hJ0 tid htid
      obtain ⟨e, he, hcond⟩ := hq
      have hw := mergeFold_writes cmp now ts0 tids rest
        ((handleVCard cmp now ts0 tids u.1 u.2 acc.1).state,
          acc.2 + (handleVCard cmp now ts0 tids u.1 u.2 acc.1).uploads) tid u.1
      rcases hw with h | ⟨i2, hi2, hval⟩
      · exact ⟨e, h.trans he, hcond⟩
      · refine ⟨⟨now, i2.content⟩, hval, Or.inr ?_⟩
        exact hcc (u.1, i2) (hsub (u.1, i2) (by simp [hi2])) u hu0all rfl
    · exact ih (fun v hv => hsub v (by simp [hv]))
        ((handleVCard cmp now ts0 tids u0.1 u0.2 acc.1).state,
          acc.2 + (handleVCard cmp now ts0 tids u0.1 u0.2 acc.1).uploads)
        hJnew u hmem tid htid


/-! ## C6: enrichment lookup priority -/

/-- C6, counterexample.  The claim says an entry matching the identifier's
UID is returned in preference to an entry matching only by phone.  Take an
identifier carrying a UID and a phone, a first entry matching only the phone
and a second entry matching the UID: `get_by_identifier` returns the first
entry, because it scans entry by entry and checks all four fields of an entry
before moving on — entry order beats field priority. -/
theorem claim_C6_counterexample :
    getByIdentifier
        [⟨⟨none, some "+491234", none, none⟩, [], []⟩,
         ⟨⟨some "uid-1", none, none, none⟩, [], []⟩]
        ⟨some "uid-1", some "+491234", none, none⟩
      = some ⟨⟨none, some "+491234", none, none⟩, [], []⟩ ∧
    (⟨⟨some "uid-1", none, none, none⟩, [], []⟩ : AdditionalVCardInfo).identifiers.uid
      = some "uid-1" ∧
    getByIdentifier
        [⟨⟨none, some "+491234", none, none⟩, [], []⟩,
         ⟨⟨some "uid-1", none, none, none⟩, [], []⟩]
        ⟨some "uid-1", some "+491234", none, none⟩
      ≠ some ⟨⟨some "uid-1", none, none, none⟩, [], []⟩ := by
  refine ⟨rfl, rfl, ?_⟩
  decide

/-- C6, amended.  `get_by_identifier` resolves by **entry order**, not by
field priority across the collection: it returns the first entry in the list
that matches the identifier on any of UID, phone, email or nickname (the four
fields are merely tested in that order within each entry). -/
theorem claim_C6 (entries : List AdditionalVCardInfo) (identifier : VCardIdentifier) :
    getByIdentifier entries identifier = entries.find? (matchesIdentifier identifier) := by
  induction entries with
  | nil => rfl
  | cons e rest ih =>
    rw [List.find?_cons]
    unfold getByIdentifier
    cases h1 : (identifier.uid.isSome && e.identifiers.uid == identifier.uid) with
    | true =>
      have hm : matchesIdentifier identifier e = true := by simp [matchesIdentifier, h1]
      simp [h1, hm]
    | false =>
      cases h2 : (identifier.phone.isSome && e.identifiers.phone == identifier.phone) with
      | true =>
        have hm : matchesIdentifier identifier e = true := by simp [matchesIdentifier, h2]
        simp [h1, h2, hm]
      | false =>
        cases h3 : (identifier.email.isSome && e.identifiers.email == identifier.email) with
        | true =>
          have hm : matchesIdentifier identifier e = true := by simp [matchesIdentifier, h3]
          simp [h1, h2, h3, hm]
        | false =>
          cases h4 :
              (identifier.nick_name.isSome && e.identifiers.nick_name == identifier.nick_name) with
          | true =>
            have hm : matchesIdentifier identifier e = true := by simp [matchesIdentifier, h4]
            simp [h1, h2, h3, h4, hm]
          | false =>
            have hm : matchesIdentifier identifier e = false := by
              simp [matchesIdentifier, h1, h2, h3, h4]
            simp [h1, h2, h3, h4, hm, ih]

/-! ## C7: primary phone derivation -/

/-- C7, counterexample.  The claim says that with no mobile-tagged number the
first listed number is used; on two non-mobile numbers the loop leaves
`phone` bound to the **last** one. -/
theorem claim_C7_counterexample :
    derivePrimaryPhone [⟨"+491111", ["HOME"]⟩, ⟨"+492222", ["WORK"]⟩] = some "+492222" ∧
    derivePrimaryPhone [⟨"+491111", ["HOME"]⟩, ⟨"+492222", ["WORK"]⟩] ≠ some "+491111" := by
  constructor
  · rfl
  · decide

/-- C7, amended.  The derived primary phone is the first number whose `TYPE`
parameter list is exactly `["CELL"]`; when no such number exists it is the
**last** listed number (not the first). -/
theorem claim_C7 (tels : List TelEntry) :
    derivePrimaryPhone tels =
      match tels.find? (fun t => t.type_param == ["CELL"]) with
      | some t => some t.value
      | none => tels.getLast?.map TelEntry.value := by
  induction tels with
  | nil => rfl
  | cons t rest ih =>
    cases rest with
    | nil =>
      by_cases h : t.type_param = ["CELL"] <;>
        simp [derivePrimaryPhone, List.find?_cons, h]
    | cons s rest2 =>
      by_cases h : t.type_param = ["CELL"]
      · simp [derivePrimaryPhone, List.find?_cons, h]
      · have hlast : (t :: s :: rest2).getLast? = (s :: rest2).getLast? := by
          simp [List.getLast?]
        simp only [derivePrimaryPhone, if_neg h, ih, List.find?_cons, hlast]
        have : (t.type_param == ["CELL"]) = false := by
          simpa using h
        simp [this]

/-! ## C9: index loading error handling -/

/-- C9.  `get_current_status` recovers from an absent index document by
returning an empty collection; it raises exactly when the document was
downloaded but failed to parse, and then the raised error carries the parse
context — a malformed document is never silently replaced by an empty
index. -/
theorem claim_C9 (parse : Bytes → Except String StoredProfilePictureInfoCollection)
    (download : IndexDownload) :
    (download = IndexDownload.notFound →
      getCurrentStatus download parse = Except.ok ⟨[]⟩) ∧
    ((∃ e, getCurrentStatus download parse = Except.error e) ↔
      (∃ data msg, download = IndexDownload.ok data ∧ parse data = Except.error msg)) ∧
    (∀ data msg, download = IndexDownload.ok data → parse data = Except.error msg →
      getCurrentStatus download parse =
        Except.error ("Failed to parse existing profile_pictures.toml: " ++ msg)) := by
  refine ⟨?_, ⟨?_, ?_⟩, ?_⟩
  · rintro rfl
    rfl
  · intro ⟨e, he⟩
    cases download with
    | notFound => simp [getCurrentStatus] at he
    | ok data =>
      cases hp : parse data with
      | ok c => simp [getCurrentStatus, hp] at he
      | error msg => exact ⟨data, msg, rfl, hp⟩
  · rintro ⟨data, msg, rfl, hp⟩
    exact ⟨"Failed to parse existing profile_pictures.toml: " ++ msg,
      by simp [getCurrentStatus, hp]⟩
  · rintro data msg rfl hp
    simp [getCurrentStatus, hp]

/-- C9, witness: a missing document yields the empty collection and a
concrete unparseable document yields the contextualised error. -/
theorem claim_C9_witness :
    getCurrentStatus IndexDownload.notFound (fun _ => Except.error "bad toml")
      = Except.ok ⟨[]⟩ ∧
    getCurrentStatus (IndexDownload.ok [0]) (fun _ => Except.error "bad toml")
      = Except.error "Failed to parse existing profile_pictures.toml: bad toml" :=
  ⟨(claim_C9 (fun _ => Except.error "bad toml") IndexDownload.notFound).1 rfl,
   (claim_C9 (fun _ => Except.error "bad toml") (IndexDownload.ok [0])).2.2 [0] "bad toml" rfl rfl⟩

/-! ## C4: injection outcome classification -/

/-- C4.  Per-entity injection: an entity with no picture is classified
`added` and uploaded regardless of the injection method; under
`COMPARE_CONTENT` an entity whose picture differs from the record is
classified `updated` and uploaded, and an entity with a byte-identical
picture is classified `unchanged` with no upload (no events at all). -/
theorem claim_C4 (fsw : String → Bool) (targetId uid : String) (v : InjVCard)
    (pp : ProfilePictureInfo) (method : InjectionMethod) (hfs : ∀ s, fsw s = true) :
    (v.photo = none →
      injectIntoVCard fsw targetId uid v pp method =
        Except.ok (InjectionResult.added, [InjectEvent.uploadVCard targetId uid])) ∧
    (∀ b, v.photo = some b → method = InjectionMethod.compare_content → b ≠ pp.photo →
      ∃ evs, injectIntoVCard fsw targetId uid v pp method
          = Except.ok (InjectionResult.updated, evs) ∧
        InjectEvent.uploadVCard targetId uid ∈ evs) ∧
    (∀ b, v.photo = some b → method = InjectionMethod.compare_content → b = pp.photo →
      injectIntoVCard fsw targetId uid v pp method
        = Except.ok (InjectionResult.unchanged, [])) := by
  refine ⟨?_, ?_, ?_⟩
  · intro h0
    simp [injectIntoVCard, h0]
  · intro b hb hm hne
    refine ⟨[InjectEvent.writeLocal (v.fn.getD uid ++ "-existing.jpg") b,
             InjectEvent.writeLocal (v.fn.getD uid ++ "-new.jpg") pp.photo,
             InjectEvent.writeLocalText (v.fn.getD uid ++ "-diff.txt") (diffText b pp.photo),
             InjectEvent.uploadVCard targetId uid], ?_, by simp⟩
    simp [injectIntoVCard, hb, hm, hne, hfs]
  · intro b hb hm hbe
    simp [injectIntoVCard, hb, hm, hbe]

/-- C4, witness: the three cases at concrete inputs. -/
theorem claim_C4_witness :
    injectIntoVCard (fun _ => true) "t1" "u1" ⟨some "Alice", ["+491234"], none⟩
        ⟨"+491234", [1], "image/jpeg"⟩ InjectionMethod.compare_content
      = Except.ok (InjectionResult.added, [InjectEvent.uploadVCard "t1" "u1"]) ∧
    (∃ evs, injectIntoVCard (fun _ => true) "t1" "u1" ⟨some "Alice", ["+491234"], some [0]⟩
        ⟨"+491234", [1], "image/jpeg"⟩ InjectionMethod.compare_content
      = Except.ok (InjectionResult.updated, evs) ∧ InjectEvent.uploadVCard "t1" "u1" ∈ evs) ∧
    injectIntoVCard (fun _ => true) "t1" "u1" ⟨some "Alice", ["+491234"], some [1]⟩
        ⟨"+491234", [1], "image/jpeg"⟩ InjectionMethod.compare_content
      = Except.ok (InjectionResult.unchanged, []) :=
  ⟨(claim_C4 (fun _ => true) "t1" "u1" ⟨some "Alice", ["+491234"], none⟩
      ⟨"+491234", [1], "image/jpeg"⟩ InjectionMethod.compare_content (fun _ => rfl)).1 rfl,
   (claim_C4 (fun _ => true) "t1" "u1" ⟨some "Alice", ["+491234"], some [0]⟩
      ⟨"+491234", [1], "image/jpeg"⟩ InjectionMethod.compare_content (fun _ => rfl)).2.1
      [0] rfl rfl (by decide),
   (claim_C4 (fun _ => true) "t1" "u1" ⟨some "Alice", ["+491234"], some [1]⟩
      ⟨"+491234", [1], "image/jpeg"⟩ InjectionMethod.compare_content (fun _ => rfl)).2.2
      [1] rfl rfl rfl⟩

/-! ## C10: local debug dump and failure propagation -/

/-- A failing unit fails `inject_profile_picture_into_target`. -/
theorem injectIntoTarget_error (fsw : String → Bool) (targetId : String)
    (vcards : List (String × InjVCard)) (pp : ProfilePictureInfo)
    (method : InjectionMethod) (uid : String) (v : InjVCard) (e : String)
    (hmem : (uid, v) ∈ vcards) (htel : pp.phone_number ∈ v.tels)
    (herr : injectIntoVCard fsw targetId uid v pp method = Except.error e) :
    ∃ e2, injectIntoTarget fsw targetId vcards pp method = Except.error e2 := by
  induction vcards with
  | nil => cases hmem
  | cons hd rest ih =>
    obtain ⟨u2, v2⟩ := hd
    rcases List.mem_cons.mp hmem with heq | hmem2
    · obtain ⟨h1, h2⟩ := Prod.mk.injEq .. ▸ heq
      subst h1; subst h2
      refine ⟨e, ?_⟩
      simp only [injectIntoTarget, if_pos htel, herr]
    · by_cases hv : pp.phone_number ∈ v2.tels
      · obtain ⟨e2, he2⟩ := ih hmem2
        cases hi : injectIntoVCard fsw targetId u2 v2 pp method with
        | error e3 => exact ⟨e3, by simp only [injectIntoTarget, if_pos hv, hi]⟩
        | ok r =>
          refine ⟨e2, ?_⟩
          simp only [injectIntoTarget, if_pos hv, hi, he2]
      · obtain ⟨e2, he2⟩ := ih hmem2
        exact ⟨e2, by simp only [injectIntoTarget, if_neg hv, he2]⟩

/-- A failing target fails `inject_profile_picture_into_all_targets`. -/
theorem injectIntoAllTargets_error (fsw : String → Bool)
    (targets : List (String × List (String × InjVCard))) (pp : ProfilePictureInfo)
    (method : InjectionMethod) (targetId : String) (vcards : List (String × InjVCard))
    (e : String) (hmem : (targetId, vcards) ∈ targets)
    (herr : injectIntoTarget fsw targetId vcards pp method = Except.error e) :
    ∃ e2, injectIntoAllTargets fsw targets pp method = Except.error e2 := by
  induction targets with
  | nil => cases hmem
  | cons hd rest ih =>
    obtain ⟨t2, vc2⟩ := hd
    rcases List.mem_cons.mp hmem with heq | hmem2
    · obtain ⟨h1, h2⟩ := Prod.mk.injEq .. ▸ heq
      subst h1; subst h2
      exact ⟨e, by simp only [injectIntoAllTargets, herr]⟩
    · obtain ⟨e2, he2⟩ := ih hmem2
      cases hi : injectIntoTarget fsw t2 vc2 pp method with
      | error e3 => exact ⟨e3, by simp only [injectIntoAllTargets, hi]⟩
      | ok r => exact ⟨e2, by simp only [injectIntoAllTargets, hi, he2]⟩

/-- C10.  When per-entity injection replaces an existing picture, it first
writes the existing photo bytes, the new photo bytes, and a size/equality
summary to local files named after the contact's display name (falling back
to the UID), in that order, before the upload; a failure of any of these
local writes aborts the unit, and an aborted unit fails the whole
`inject_from_all_crawlers` batch. -/
theorem claim_C10 (fsw : String → Bool) (targetId uid : String) (v : InjVCard)
    (pp : ProfilePictureInfo) (method : InjectionMethod) (b : Bytes)
    (hphoto : v.photo = some b)
    (hrepl : method = InjectionMethod.always_override ∨
      (method = InjectionMethod.compare_content ∧ b ≠ pp.photo)) :
    ((fsw (v.fn.getD uid ++ "-existing.jpg") = true ∧
      fsw (v.fn.getD uid ++ "-new.jpg") = true ∧
      fsw (v.fn.getD uid ++ "-diff.txt") = true) →
      injectIntoVCard fsw targetId uid v pp method =
        Except.ok (InjectionResult.updated,
          [InjectEvent.writeLocal (v.fn.getD uid ++ "-existing.jpg") b,
           InjectEvent.writeLocal (v.fn.getD uid ++ "-new.jpg") pp.photo,
           InjectEvent.writeLocalText (v.fn.getD uid ++ "-diff.txt") (diffText b pp.photo),
           InjectEvent.uploadVCard targetId uid])) ∧
    ((fsw (v.fn.getD uid ++ "-existing.jpg") = false ∨
      fsw (v.fn.getD uid ++ "-new.jpg") = false ∨
      fsw (v.fn.getD uid ++ "-diff.txt") = false) →
      ∃ e, injectIntoVCard fsw targetId uid v pp method = Except.error e) ∧
    (∀ targets vcards rest seen e,
      (targetId, vcards) ∈ targets → (uid, v) ∈ vcards → pp.phone_number ∈ v.tels →
      injectIntoVCard fsw targetId uid v pp method = Except.error e →
      pp.phone_number ∉ seen →
      ∃ e2, injectRunAux fsw targets method seen (pp :: rest) = Except.error e2) := by
  refine ⟨?_, ?_, ?_⟩
  · rintro ⟨h1, h2, h3⟩
    simp [injectIntoVCard, hphoto, if_pos hrepl, h1, h2, h3]
  · intro hfail
    cases hf1 : fsw (v.fn.getD uid ++ "-existing.jpg") with
    | false =>
      exact ⟨"write failed: " ++ (v.fn.getD uid ++ "-existing.jpg"),
        by simp [injectIntoVCard, hphoto, if_pos hrepl, hf1]⟩
    | true =>
      cases hf2 : fsw (v.fn.getD uid ++ "-new.jpg") with
      | false =>
        exact ⟨"write failed: " ++ (v.fn.getD uid ++ "-new.jpg"),
          by simp [injectIntoVCard, hphoto, if_pos hrepl, hf1, hf2]⟩
      | true =>
        cases hf3 : fsw (v.fn.getD uid ++ "-diff.txt") with
        | false =>
          exact ⟨"write failed: " ++ (v.fn.getD uid ++ "-diff.txt"),
            by simp [injectIntoVCard, hphoto, if_pos hrepl, hf1, hf2, hf3]⟩
        | true =>
          rcases hfail with h | h | h <;> simp_all
  · intro targets vcards rest seen e hmemt hmemv htel herr hseen
    obtain ⟨e2, he2⟩ :=
      injectIntoTarget_error fsw targetId vcards pp method uid v e hmemv htel herr
    obtain ⟨e3, he3⟩ :=
      injectIntoAllTargets_error fsw targets pp method targetId vcards e2 hmemt he2
    refine ⟨e3, ?_⟩
    simp only [injectRunAux, if_neg hseen, he3]

/-! ## C2: merge idempotence -/

/-- C2, counterexample.  Two sources that share UID `u1` with different
bodies, one empty target, `CONTENT` mode: the first pass uploads both bodies
(the presence check uses the snapshot taken before either upload), and the
second pass still performs two uploads — each source's unit finds the target
body differing from its own.  The claim promises zero uploads on the second
pass for **every** set of collections. -/
theorem claim_C2_counterexample :
    (doMerge ComparisonMethod.content 20 [[("u1", ⟨5, "X"⟩)], [("u1", ⟨5, "Y"⟩)]] ["t1"]
      (doMerge ComparisonMethod.content 10 [[("u1", ⟨5, "X"⟩)], [("u1", ⟨5, "Y"⟩)]] ["t1"]
        (fun _ _ => none)).1).2 = 2 ∧ (2 : Nat) ≠ 0 := by
  constructor
  · rfl
  · decide

/-- C2, amended.  With no intervening remote changes, a second `do_merge`
pass performs zero target uploads under both comparison modes, **provided**
any two source units sharing a UID carry identical content (in particular
whenever no UID occurs in two sources).  The second pass's upload times are
arbitrary: every unit skips either by the `EDIT_DATE` freshness check or by
the content comparison. -/
theorem claim_C2 (cmp : ComparisonMethod) (now1 now2 : Nat)
    (sources : List (List (String × VCardEntry))) (tids : List String) (ts0 : TargetState)
    (hcc : ContentCompatible sources.flatten) :
    (doMerge cmp now2 sources tids (doMerge cmp now1 sources tids ts0).1).2 = 0 := by
  have hpost := mergeFold_establish cmp now1 ts0 tids sources.flatten hcc sources.flatten
    (fun u h => h) (ts0, 0) (fun t u2 => Or.inl rfl)
  have hskip := mergeFold_skip cmp now2 (doMerge cmp now1 sources tids ts0).1 tids
    sources.flatten ((doMerge cmp now1 sources tids ts0).1, 0)
    (fun u hu tid htid => hpost u hu tid htid) rfl
  exact hskip.2

/-- C2, witness: one source, one target, `CONTENT` mode — the second pass
uploads nothing. -/
theorem claim_C2_witness :
    (doMerge ComparisonMethod.content 20 [[("u1", ⟨5, "X"⟩)]] ["t1"]
      (doMerge ComparisonMethod.content 10 [[("u1", ⟨5, "X"⟩)]] ["t1"]
        (fun _ _ => none)).1).2 = 0 :=
  claim_C2 ComparisonMethod.content 10 20 [[("u1", ⟨5, "X"⟩)]] ["t1"] (fun _ _ => none)
    (by decide)

/-! ## C5: source-body fetching in one merge unit -/

/-- C5, counterexample.  `CONTENT` mode, one target that holds the UID with a
different body: the unit downloads the source body once for the comparison
and once more to fill the upload cache — two source fetches, where the claim
allows at most one. -/
theorem claim_C5_counterexample :
    (handleVCard ComparisonMethod.content 10
        (fun t u => if t = "t1" ∧ u = "u1" then some ⟨5, "Y"⟩ else none) ["t1"] "u1" ⟨7, "X"⟩
        (fun t u => if t = "t1" ∧ u = "u1" then some ⟨5, "Y"⟩ else none)).sourceDownloads
      = 2 ∧ ¬ ((2 : Nat) ≤ 1) := by
  constructor
  · rfl
  · decide

/-- C5, amended.  Within one `(source, uid)` unit, the **upload body** is
fetched at most once (the `vcard_content` cache fills at most once) and every
upload across all targets writes that same source body; but each content
comparison performs its own uncached source download, so the unit's total
source fetches equal the number of comparisons plus the cache fill and can
exceed one. -/
theorem claim_C5 (cmp : ComparisonMethod) (now : Nat) (snap : TargetState)
    (tids : List String) (uid : String) (info : VCardEntry) (ts : TargetState) :
    (handleVCard cmp now snap tids uid info ts).cacheFills ≤ 1 ∧
    (handleVCard cmp now snap tids uid info ts).sourceDownloads
      = (handleVCard cmp now snap tids uid info ts).compares
        + (handleVCard cmp now snap tids uid info ts).cacheFills ∧
    (∀ t u, (handleVCard cmp now snap tids uid info ts).state t u = ts t u ∨
      (u = uid ∧ (handleVCard cmp now snap tids uid info ts).state t u
        = some ⟨now, info.content⟩)) := by
  have h := handleVCard_fold_spec cmp now snap uid info tids ⟨ts, 0, 0, 0, 0, none⟩
    (Or.inl rfl)
  have hcf : (handleVCard cmp now snap tids uid info ts).cacheFills = 0 ∨
      (handleVCard cmp now snap tids uid info ts).cacheFills = 0 + 1 := by
    rcases h.2.2.1 with h1 | ⟨_, h1⟩
    · exact Or.inl h1
    · exact Or.inr h1
  have hsd : (handleVCard cmp now snap tids uid info ts).sourceDownloads + 0 + 0
      = 0 + (handleVCard cmp now snap tids uid info ts).compares
        + (handleVCard cmp now snap tids uid info ts).cacheFills := h.2.1
  refine ⟨?_, ?_, h.2.2.2.2⟩
  · omega
  · omega

/-- C10, witness: with a writable directory the replace branch dumps the
three files and uploads; with an unwritable directory the single-record batch
fails as a whole. -/
theorem claim_C10_witness :
    injectIntoVCard (fun _ => true) "t1" "u1" ⟨some "Alice", ["+491234"], some [0]⟩
        ⟨"+491234", [1], "image/jpeg"⟩ InjectionMethod.always_override
      = Except.ok (InjectionResult.updated,
          [InjectEvent.writeLocal "Alice-existing.jpg" [0],
           InjectEvent.writeLocal "Alice-new.jpg" [1],
           InjectEvent.writeLocalText "Alice-diff.txt" (diffText [0] [1]),
           InjectEvent.uploadVCard "t1" "u1"]) ∧
    (∃ e2, injectRunAux (fun _ => false)
        [("t1", [("u1", ⟨some "Alice", ["+491234"], some [0]⟩)])]
        InjectionMethod.always_override [] [⟨"+491234", [1], "image/jpeg"⟩]
      = Except.error e2) := by
  have base := claim_C10 (fun _ => true) "t1" "u1" ⟨some "Alice", ["+491234"], some [0]⟩
    ⟨"+491234", [1], "image/jpeg"⟩ InjectionMethod.always_override [0] rfl (Or.inl rfl)
  have bad := claim_C10 (fun _ => false) "t1" "u1" ⟨some "Alice", ["+491234"], some [0]⟩
    ⟨"+491234", [1], "image/jpeg"⟩ InjectionMethod.always_override [0] rfl (Or.inl rfl)
  obtain ⟨e, he⟩ := bad.2.1 (Or.inl rfl)
  refine ⟨base.1 ⟨rfl, rfl, rfl⟩, ?_⟩
  exact bad.2.2 [("t1", [("u1", ⟨some "Alice", ["+491234"], some [0]⟩)])]
    [("u1", ⟨some "Alice", ["+491234"], some [0]⟩)] [] [] e
    (by simp) (by simp) (by simp) he (by simp)

end CardDavUtils
